import Mathlib

/-!
Verification of the pseudo-code obfuscation buster
(src/pseudo_code_obfuscation_buster.py).

The whole pipeline is embedded shallowly over `List Char`.  Python's `re`
operations are modelled by executable scanners that reproduce the semantics
of the concrete patterns used by the source (left-to-right scanning,
non-overlapping substitution, greedy quantifiers with backtracking tried
longest-first, alternatives tried in order, `\b` word boundaries, optional
`re.IGNORECASE` as ASCII case folding).  All scanners recurse structurally
on an explicit fuel argument (always instantiated with the length of the
scanned list, which bounds the number of scanning steps since every step
consumes at least one character), so every definition is executable and
reduces inside the kernel.
-/

set_option maxRecDepth 10000

/-- Single quote character (avoids apostrophes in string literals). -/
def sqc : Char := Char.ofNat 39

/-- Double quote character. -/
def dqc : Char := Char.ofNat 34

/-- Newline character. -/
def nlc : Char := Char.ofNat 10

/-- Python regex `\w` / `str` word characters, restricted to ASCII (all the
inputs of this program are ASCII): letters, digits and underscore. -/
def isWordChar (c : Char) : Bool := c.isAlphanum || c = '_'

/-- Python `str.strip` / regex `\s` whitespace characters. -/
def pySpace (c : Char) : Bool :=
  c = ' ' || c = Char.ofNat 9 || c = nlc || c = Char.ofNat 13 ||
  c = Char.ofNat 11 || c = Char.ofNat 12

/-- Python `str.strip`: drop whitespace from both ends. -/
def pyStrip (l : List Char) : List Char :=
  ((l.dropWhile pySpace).reverse.dropWhile pySpace).reverse

/-- Python `str.lower` on ASCII text. -/
def pyLower (l : List Char) : List Char := l.map Char.toLower

/-- Python `str.replace (c, the empty string)` for a one-character pattern:
every occurrence of `c` is removed. -/
def removeChar (c : Char) (l : List Char) : List Char := l.filter (· ≠ c)

/-- Python `str.isdigit` on ASCII text: nonempty and all digits. -/
def isdigitPy (l : List Char) : Bool := !l.isEmpty && l.all Char.isDigit

/-- Python `str.isupper` on ASCII text: at least one cased character and no
lowercase one.  (A string without letters is neither upper nor lower.) -/
def pyIsUpper (l : List Char) : Bool :=
  l.any Char.isUpper && l.all (fun c => !c.isLower)

/-- Python `str.islower` on ASCII text. -/
def pyIsLower (l : List Char) : Bool :=
  l.any Char.isLower && l.all (fun c => !c.isUpper)

/-- Case-fold a character when `ci` is set (models `re.IGNORECASE`). -/
def foldCase (ci : Bool) (c : Char) : Char := if ci then c.toLower else c

/-- Match the literal `pat` at the head of `s` (case-insensitively when `ci`),
returning the rest of `s` on success.  Models matching an escaped literal
inside a regex. -/
def matchLit (ci : Bool) : List Char → List Char → Option (List Char)
  | [], s => some s
  | _ :: _, [] => none
  | p :: ps, c :: cs =>
    if foldCase ci c = foldCase ci p then matchLit ci ps cs else none

/-- `stripPre pre l` returns `some r` when `l = pre ++ r` (case-sensitive). -/
def stripPre (pre l : List Char) : Option (List Char) := matchLit false pre l

/-- Word-boundary test of `\b` between two (optional) neighbouring
characters: exactly one side is a word character; the ends of the string
count as non-word. -/
def boundary (a b : Option Char) : Bool :=
  (a.elim false isWordChar) != (b.elim false isWordChar)

/-- Head of a list as an `Option`. -/
def hd? : List Char → Option Char
  | [] => none
  | c :: _ => some c

-- -------------------------------------------------------------------------
-- Synonym table (VAR_SYNONYMS in the source) and derived maps
-- -------------------------------------------------------------------------

/-- `VAR_SYNONYMS`: canonical name to list of alias spellings, in source
order. -/
def VAR_SYNONYMS : List (List Char × List (List Char)) :=
  [ ("user_type".data, ["UserType".data, "user_type".data, "type_of_user".data,
      "User_Type".data, "uset_type".data]),
    ("account_status".data, ["ACCT_STATUS".data, "accountStatus".data,
      "status_of_account".data, "Acct_Status".data, "account_status".data]),
    ("customer_tier".data, ["Customer_Tier".data, "customerTier".data,
      "tier_of_customer".data, "customer_tier".data]),
    ("purchase_amount".data, ["purchaseAmount".data, "amount_of_purchase".data,
      "purchase_amount".data]),
    ("user_id".data, ["user_ID".data, "UserId".data, "userId".data,
      "user_id".data, "ID_of_user".data]),
    ("current_time".data, ["current_TIME".data, "CurrentTime".data,
      "currentTime".data, "current_time".data, "time_now".data]),
    ("user_role".data, ["User_Role".data, "user_role".data,
      "role_of_user".data, "userRole".data]),
    ("item_count".data, ["itemCount".data, "Item_Count".data,
      "count_of_items".data, "item_count".data]),
    ("item_weight".data, ["item_weight".data, "ItemWeight".data,
      "weight_of_item".data, "itemWeight".data]),
    ("customer_rating".data, ["customer_rating".data, "CustomerRating".data,
      "rating_of_customer".data, "customerRating".data]),
    ("user_status".data, ["user_status".data, "UserStatus".data,
      "status_of_user".data, "userStatus".data]),
    ("is_user_admin".data, ["is_User_Admin".data, "is_user_admin".data,
      "isAdmin".data, "IsUserAdmin".data]) ]

/-- `ALL_VAR_NAMES`: every alias, lowercased (the source builds a `set`;
only membership is ever used, so a list models it). -/
def ALL_VAR_NAMES : List (List Char) :=
  VAR_SYNONYMS.foldl (fun acc p => acc ++ p.2.map pyLower) []

/-- `VAR_CANONICAL`: map from lowercased alias to canonical name, as an
association list built in source order. -/
def VAR_CANONICAL : List (List Char × List Char) :=
  VAR_SYNONYMS.foldl (fun acc p => acc ++ p.2.map (fun s => (pyLower s, p.1))) []

-- -------------------------------------------------------------------------
-- to_snake_case and normalize_var
-- -------------------------------------------------------------------------

/-- First substitution of `to_snake_case`:
`re.sub(r"([a-z0-9])([A-Z])", r"\1_\2", s)` — insert an underscore between a
lowercase-or-digit character and a following uppercase character; the match
consumes both characters (non-overlapping scanning). -/
def snakeCamel : List Char → List Char
  | [] => []
  | [c] => [c]
  | a :: b :: rest =>
    if (a.isLower || a.isDigit) && b.isUpper then
      a :: '_' :: b :: snakeCamel rest
    else
      a :: snakeCamel (b :: rest)

/-- `pySpace` or hyphen, the class `[\s\-]` of `to_snake_case`. -/
def spaceHyphen (c : Char) : Bool := pySpace c || c = '-'

/-- Second substitution of `to_snake_case`: `re.sub(r"[\s\-]+", "_", s)` —
replace every maximal run of whitespace/hyphen by one underscore. -/
def snakeSpaces : Nat → List Char → List Char
  | 0, l => l
  | _ + 1, [] => []
  | f + 1, c :: rest =>
    if spaceHyphen c then '_' :: snakeSpaces f (rest.dropWhile spaceHyphen)
    else c :: snakeSpaces f rest

/-- `to_snake_case` from the source. -/
def to_snake_case (s : List Char) : List Char :=
  let s1 := snakeCamel s
  let s2 := snakeSpaces s1.length s1
  pyLower s2

/-- `normalize_var` from the source: strip, remove quotes, then return the
first canonical name whose alias list contains the cleaned string, its
snake-case form, or its lowercase form (case-insensitively); otherwise fall
back to the snake-case form. -/
def normalize_var (var : List Char) : List Char :=
  let v := removeChar dqc (removeChar sqc (pyStrip var))
  let vSnake := to_snake_case v
  match VAR_SYNONYMS.find? (fun p =>
      decide (v ∈ p.2) || decide (vSnake ∈ p.2) ||
      decide (pyLower v ∈ p.2.map pyLower)) with
  | some p => p.1
  | none => vSnake

-- -------------------------------------------------------------------------
-- Whole-word substitution engine (for the `\b...\b` re.sub patterns)
-- -------------------------------------------------------------------------

/-- Try the alternatives `alts` in order at the current position: the first
one whose characters match (case-insensitively when `ci`) and whose two `\b`
boundaries hold is taken.  `pw` is whether the previous character is a word
character.  Returns the rest after the matched alternative. -/
def tryWordAlts (ci : Bool) (pw : Bool) (alts : List (List Char))
    (s : List Char) : Option (List Char) :=
  alts.findSome? (fun a =>
    match a with
    | [] => none
    | a0 :: _ =>
      if boundary (if pw then some 'a' else none) (some a0) then
        match matchLit ci a s with
        | some rest =>
          if boundary a.getLast? (hd? rest) then some rest
          else none
        | none => none
      else none)

/-- Scanner for `re.sub(r"\b(alt1|alt2|...)\b", repl, line)`: left-to-right,
non-overlapping; the replacement text is not rescanned; subsequent boundary
checks look at the characters of the original text. -/
def subWordAltsGo (ci : Bool) (alts : List (List Char)) (repl : List Char) :
    Nat → Bool → List Char → List Char
  | 0, _, s => s
  | _ + 1, _, [] => []
  | f + 1, pw, c :: rest =>
    match tryWordAlts ci pw alts (c :: rest) with
    | some after =>
      repl ++ subWordAltsGo ci alts repl f true after
    | none => c :: subWordAltsGo ci alts repl f (isWordChar c) rest

/-- `re.sub` of a whole-word alternation (all alternatives used by the
source start and end with word characters, so after a match the previous
character seen by the next boundary check is a word character). -/
def subWordAlts (ci : Bool) (alts : List (List Char)) (repl : List Char)
    (l : List Char) : List Char :=
  subWordAltsGo ci alts repl l.length false l

/-- Single whole-word pattern: used for `re.sub(rf"\b{re.escape(orig)}\b",
norm, line)` where `orig` may end in a space or hyphen, making the trailing
`\b` demand a word character after the match. -/
def matchWholeWord (ci : Bool) (pw : Bool) (pat s : List Char) :
    Option (List Char) :=
  match pat with
  | [] => none
  | p0 :: _ =>
    if boundary (if pw then some 'a' else none) (some p0) then
      match matchLit ci pat s with
      | some rest =>
        if boundary pat.getLast? (hd? rest) then some rest
        else none
      | none => none
    else none

/-- Whether `c` counts as a word character for the purpose of the boundary
state carried by the scanners. -/
def lastIsWord (pat : List Char) : Bool :=
  match pat.getLast? with
  | some c => isWordChar c
  | none => false

/-- Scanner for `re.sub(rf"\b{pat}\b", repl, line)` with a literal `pat`. -/
def pySubWordGo (ci : Bool) (pat repl : List Char) :
    Nat → Bool → List Char → List Char
  | 0, _, s => s
  | _ + 1, _, [] => []
  | f + 1, pw, c :: rest =>
    match matchWholeWord ci pw pat (c :: rest) with
    | some after => repl ++ pySubWordGo ci pat repl f (lastIsWord pat) after
    | none => c :: pySubWordGo ci pat repl f (isWordChar c) rest

/-- `re.sub(rf"\b{re.escape(pat)}\b", repl, l)`, optionally ignoring case. -/
def pySubWord (ci : Bool) (pat repl l : List Char) : List Char :=
  pySubWordGo ci pat repl l.length false l

-- -------------------------------------------------------------------------
-- Keyword normalizer
-- -------------------------------------------------------------------------

/-- `LOGIC_KEYWORDS` from the source: ordered rules, each an alternation of
whole-word phrases with its replacement. -/
def LOGIC_KEYWORDS : List (List (List Char) × List Char) :=
  [ (["IF".data, "WHENEVER".data, "PROVIDED THAT".data, "ONLY WHEN".data], "IF".data),
    (["AND".data, "ALSO".data, "IN ADDITION TO".data], "AND".data),
    (["OR".data, "EITHER".data, "UNLESS".data], "OR".data),
    (["NOT".data, "IS NOT".data, "DIFFERENT FROM".data], "NOT".data),
    (["EQUALS".data, "IS SAME AS".data, "MATCHES".data], "==".data),
    (["GREATER THAN".data, "ABOVE".data], ">".data),
    (["LESS THAN".data, "BELOW".data], "<".data),
    (["TRUE".data, "YES".data, "ACTIVE".data], "TRUE".data),
    (["FALSE".data, "NO".data, "INACTIVE".data], "FALSE".data),
    (["IS".data], "==".data) ]

/-- `normalize_keywords`: first `IS NOT` is rewritten to `NOT`, then every
rule of `LOGIC_KEYWORDS` is applied in order, all case-insensitively. -/
def normalize_keywords (line : List Char) : List Char :=
  let line := subWordAlts true ["IS NOT".data] "NOT".data line
  LOGIC_KEYWORDS.foldl (fun acc r => subWordAlts true r.1 r.2 acc) line

-- -------------------------------------------------------------------------
-- Variable normalizer
-- -------------------------------------------------------------------------

/-- Character class of the first regex group of `var_pattern`:
`[a-zA-Z0-9_\- ]`. -/
def isVarClass (c : Char) : Bool := c.isAlphanum || c = '_' || c = '-' || c = ' '

/-- A character allowed to start the first group: `[a-zA-Z_]`. -/
def isVarStart (c : Char) : Bool := c.isAlpha || c = '_'

/-- Descending search: try `f n`, `f (n-1)`, ..., `f 0`, returning the first
success.  Models greedy backtracking (longest first). -/
def firstSomeDesc {α : Type} (f : Nat → Option α) : Nat → Option α
  | 0 => f 0
  | n + 1 =>
    match f (n + 1) with
    | some v => some v
    | none => firstSomeDesc f n

/-- The operator alternation of `var_pattern`, in source order. -/
def VAR_OPS : List (List Char) :=
  ["==".data, "!=".data, ">".data, "<".data, "AND".data, "OR".data, "NOT".data]

/-- First operator alternative that matches at the head of `s`
(case-sensitive, no boundaries — the pattern has none). -/
def opFirst (s : List Char) : Option (List Char × List Char) :=
  VAR_OPS.findSome? (fun op =>
    match stripPre op s with
    | some rest => some (op, rest)
    | none => none)

/-- Try `var_pattern = ([a-zA-Z_][a-zA-Z0-9_\- ]*)\s*(==|!=|>|<|AND|OR|NOT)`
at the current position: group 1 greedy (longest first), then `\s*` greedy,
then the operator alternation.  Returns (group1, operator, rest-after-match). -/
def tryVarMatch (s : List Char) : Option (List Char × List Char × List Char) :=
  match s with
  | [] => none
  | c :: _ =>
    if isVarStart c then
      let run := s.takeWhile isVarClass
      firstSomeDesc (fun k1 =>
        if k1 = 0 then none
        else
          let orig := s.take k1
          let s1 := s.drop k1
          let ws := s1.takeWhile pySpace
          firstSomeDesc (fun w1 =>
            match opFirst (s1.drop w1) with
            | some (op, rest) => some (orig, op, rest)
            | none => none) ws.length) run.length
    else none

/-- `var_pattern.findall(line)`: scan left to right, recording every
non-overlapping match, resuming after each match. -/
def findVarOpsGo : Nat → List Char → List (List Char × List Char)
  | 0, _ => []
  | _ + 1, [] => []
  | f + 1, c :: rest =>
    match tryVarMatch (c :: rest) with
    | some (orig, op, after) => (orig, op) :: findVarOpsGo f after
    | none => findVarOpsGo f rest

/-- All `(group1, operator)` pairs of `var_pattern` in `l`. -/
def findVarOps (l : List Char) : List (List Char × List Char) :=
  findVarOpsGo l.length l

/-- `normalize_variables` from the source: first the matches of
`var_pattern` are computed on the incoming line, and for each one whose
normal form differs, a whole-word case-sensitive substitution is applied to
the (evolving) line; then a table-wide case-insensitive sweep replaces every
alias occurrence by its canonical name. -/
def normalize_variables (line : List Char) : List Char :=
  let ms := findVarOps line
  let line := ms.foldl (fun acc m =>
    let orig := m.1
    let norm := normalize_var orig
    if orig ≠ norm then pySubWord false orig norm acc else acc) line
  VAR_SYNONYMS.foldl (fun acc p =>
    p.2.foldl (fun acc2 s =>
      if s ≠ p.1 then pySubWord true s p.1 acc2 else acc2) acc) line

-- -------------------------------------------------------------------------
-- Literal normalizer
-- -------------------------------------------------------------------------

/-- One pass of `re.sub(r"==\s*LIT", "== LIT", line, flags=IGNORECASE)`:
at each position, `==` followed by whitespace and the literal is rewritten
with exactly one space; otherwise the scan advances one character. -/
def subLiteralGo (lit : List Char) : Nat → List Char → List Char
  | 0, s => s
  | _ + 1, [] => []
  | f + 1, c :: rest =>
    match stripPre "==".data (c :: rest) with
    | some r =>
      let w := r.takeWhile pySpace
      match matchLit true lit (r.drop w.length) with
      | some rest2 => ("== ".data ++ lit) ++ subLiteralGo lit f rest2
      | none => c :: subLiteralGo lit f rest
    | none => c :: subLiteralGo lit f rest

/-- `normalize_literals` from the source: the `TRUE` pass then the `FALSE`
pass. -/
def normalize_literals (line : List Char) : List Char :=
  let line := subLiteralGo "TRUE".data line.length line
  subLiteralGo "FALSE".data line.length line

-- -------------------------------------------------------------------------
-- Redundancy detector
-- -------------------------------------------------------------------------

/-- Scanner for `re.split(r"\bAND\b|\bOR\b", line)`: pieces between the
non-overlapping whole-word occurrences of `AND` / `OR` (case-sensitive;
the `AND` alternative is tried first).  `cur` holds the current piece in
reverse. -/
def splitAndOrGo : Nat → Bool → List Char → List Char → List (List Char)
  | 0, _, cur, s => [cur.reverse ++ s]
  | _ + 1, _, cur, [] => [cur.reverse]
  | f + 1, pw, cur, c :: rest =>
    match tryWordAlts false pw ["AND".data] (c :: rest) with
    | some after => cur.reverse :: splitAndOrGo f true [] after
    | none =>
      match tryWordAlts false pw ["OR".data] (c :: rest) with
      | some after => cur.reverse :: splitAndOrGo f true [] after
      | none => splitAndOrGo f (isWordChar c) (c :: cur) rest

/-- `re.split(r"\bAND\b|\bOR\b", line)`. -/
def splitAndOr (l : List Char) : List (List Char) :=
  splitAndOrGo l.length false [] l

/-- Scanner for `re.sub(r"\b(THEN|DO|ELSE)\b.*", "", c)`: from the first
whole-word `THEN`/`DO`/`ELSE`, the keyword and the rest of the physical line
(`.*` stops before a newline) are removed; scanning then continues. -/
def stripActionGo : Nat → Bool → List Char → List Char
  | 0, _, s => s
  | _ + 1, _, [] => []
  | f + 1, pw, c :: rest =>
    match tryWordAlts false pw ["THEN".data, "DO".data, "ELSE".data] (c :: rest) with
    | some after =>
      let run := after.takeWhile (fun c => c ≠ nlc)
      let cont := after.drop run.length
      stripActionGo f (lastIsWord (if run.isEmpty then "N".data else run)) cont
    | none => c :: stripActionGo f (isWordChar c) rest

/-- Remove the trailing action clause of one condition atom. -/
def stripAction (l : List Char) : List Char :=
  stripActionGo l.length false l

/-- The seen-set loop of `detect_redundancy`, in order. -/
def redLoop : List (List Char) → List (List Char) → List (List Char)
  | [], _ => []
  | c :: rest, seen =>
    let cClean := pyStrip (stripAction c)
    if cClean ∈ seen then cClean :: redLoop rest seen
    else redLoop rest (cClean :: seen)

/-- `detect_redundancy` from the source: split on `AND`/`OR`, strip and drop
empty pieces, clean each atom of its action clause, and report every atom
already seen (in scanning order). -/
def detect_redundancy (line : List Char) : List (List Char) :=
  let conds := ((splitAndOr line).map pyStrip).filter (fun c => c ≠ [])
  redLoop conds []

-- -------------------------------------------------------------------------
-- Contradiction detector
-- -------------------------------------------------------------------------

/-- All splittings `l = p ++ q`. -/
def splitsOf (l : List Char) : List (List Char × List Char) :=
  (List.range (l.length + 1)).map (fun i => (l.take i, l.drop i))

/-- `optAny o f` is `f v` when `o = some v`, else `false`. -/
def optAny {α : Type} (o : Option α) (f : α → Bool) : Bool :=
  match o with
  | none => false
  | some v => f v

/-- Without-newline test: the characters matched by `.` in the pattern. -/
def noNL (l : List Char) : Bool := l.all (fun c => c ≠ nlc)

/-- `detect_contradiction` from the source is the truthiness of
`re.search(r"IF (.+?) == (.+?) (THEN|DO).+ELSE IF \1 == \2", line)`.
A search succeeds exactly when the string decomposes as
`a ++ "IF " ++ x ++ " == " ++ y ++ " " ++ kw ++ m ++ "ELSE IF " ++ x ++
" == " ++ y ++ b` with `x`, `y`, `m` nonempty and newline-free and `kw`
one of `THEN`/`DO`; this decides exactly that existence. -/
def detect_contradiction (line : List Char) : Bool :=
  (splitsOf line).any (fun at0 =>
    optAny (stripPre "IF ".data at0.2) (fun r1 =>
      (splitsOf r1).any (fun sx =>
        (!sx.1.isEmpty) && noNL sx.1 &&
        optAny (stripPre " == ".data sx.2) (fun r2 =>
          (splitsOf r2).any (fun sy =>
            (!sy.1.isEmpty) && noNL sy.1 &&
            optAny (stripPre " ".data sy.2) (fun r3 =>
              (["THEN".data, "DO".data].filterMap (fun kw => stripPre kw r3)).any
                (fun r4 =>
                  (splitsOf r4).any (fun sm =>
                    (!sm.1.isEmpty) && noNL sm.1 &&
                    optAny (stripPre "ELSE IF ".data sm.2) (fun r5 =>
                      optAny (stripPre sx.1 r5) (fun r6 =>
                        optAny (stripPre " == ".data r6) (fun r7 =>
                          (stripPre sy.1 r7).isSome)))))))))))

/-- The shape described by the specification for the Contradiction
Detector: the line contains
`IF <var> == <val> ... THEN|DO ... ELSE IF <var> == <val>` with the same
variable text and the same value text in both guards (the gaps nonempty and
within one physical line). -/
def contradictionShapeSpec (l : List Char) : Prop :=
  ∃ a x y kw m b : List Char,
    (kw = "THEN".data ∨ kw = "DO".data) ∧
    x ≠ [] ∧ y ≠ [] ∧ m ≠ [] ∧
    (∀ c ∈ x, c ≠ nlc) ∧ (∀ c ∈ y, c ≠ nlc) ∧ (∀ c ∈ m, c ≠ nlc) ∧
    l = a ++ "IF ".data ++ x ++ " == ".data ++ y ++ " ".data ++ kw ++ m ++
        "ELSE IF ".data ++ x ++ " == ".data ++ y ++ b

-- -------------------------------------------------------------------------
-- Typo detector
-- -------------------------------------------------------------------------

/-- Scanner for `re.findall(r"\b[a-zA-Z_][a-zA-Z0-9_]*\b", line)`: maximal
word-character runs that start with a letter or underscore (runs starting
with a digit yield no token because no `\b` position exists inside them). -/
def findTokensGo : Nat → Bool → List Char → List (List Char)
  | 0, _, _ => []
  | _ + 1, _, [] => []
  | f + 1, pw, c :: rest =>
    if (c.isAlpha || c = '_') && !pw then
      let tok := c :: rest.takeWhile isWordChar
      tok :: findTokensGo f true (rest.drop (tok.length - 1))
    else
      findTokensGo f (isWordChar c) rest

/-- All identifier-like tokens of a line. -/
def findTokens (l : List Char) : List (List Char) :=
  findTokensGo l.length false l

/-- The flagging condition of `detect_typos` for one token. -/
def typoCond (t : List Char) : Bool :=
  let tl := pyLower t
  decide (tl ∉ ALL_VAR_NAMES) && decide (tl ∉ VAR_CANONICAL.map Prod.fst) &&
  decide (4 < t.length) && !pyIsUpper t && !pyIsLower t

/-- `detect_typos` from the source: collect every identifier-like token that
is unknown (case-insensitively), longer than four characters, and neither
`isupper` nor `islower`. -/
def detect_typos (line : List Char) : List (List Char) :=
  (findTokens line).filter typoCond

-- -------------------------------------------------------------------------
-- Illogical-comparison detector
-- -------------------------------------------------------------------------

/-- One match of the pattern
`(\w+)\s*(==|!=|>|<)\s*(['\"]?)([\w\s]+)\3`. -/
structure IllogMatch where
  var : List Char
  op : List Char
  quote : Option Char
  val : List Char
deriving DecidableEq, Repr

/-- Word-or-whitespace characters, the class `[\w\s]` of group 4. -/
def isWordSpace (c : Char) : Bool := isWordChar c || pySpace c

/-- Comparison operators of the illogical pattern, in source order. -/
def CMP_OPS : List (List Char) := ["==".data, "!=".data, ">".data, "<".data]

/-- First comparison operator matching at the head of `s`. -/
def cmpOpFirst (s : List Char) : Option (List Char × List Char) :=
  CMP_OPS.findSome? (fun op =>
    match stripPre op s with
    | some rest => some (op, rest)
    | none => none)

/-- Value part `(['\"]?)([\w\s]+)\3` of the illogical pattern at `s4`:
the optional quote group is greedy (a quote character present is consumed
first), group 4 is a greedy `[\w\s]+` run tried longest first, and the
backreference requires the same quote (or nothing) right after it. -/
def tryIllogValue (s4 : List Char) : Option ((Option Char × List Char) × List Char) :=
  match s4 with
  | [] => none
  | c :: inner =>
    if c = sqc || c = dqc then
      let run := inner.takeWhile isWordSpace
      firstSomeDesc (fun k4 =>
        if k4 = 0 then none
        else
          match stripPre [c] (inner.drop k4) with
          | some rest => some ((some c, inner.take k4), rest)
          | none => none) run.length
    else
      let run := (c :: inner).takeWhile isWordSpace
      firstSomeDesc (fun k4 =>
        if k4 = 0 then none
        else some ((none, (c :: inner).take k4), (c :: inner).drop k4))
        run.length

/-- Value stage of the illogical pattern after the operator: `\s*` greedy,
then the quoted-or-bare value group with its backreference. -/
def illogValueCont (var op : List Char) (s3 : List Char) :
    Option (IllogMatch × List Char) :=
  firstSomeDesc (fun w2 =>
    match tryIllogValue (s3.drop w2) with
    | some ((q, v), rest) => some (⟨var, op, q, v⟩, rest)
    | none => none) (s3.takeWhile pySpace).length

/-- Operator stage of the illogical pattern after the variable: `\s*`
greedy, then the operator alternation, then the value stage. -/
def illogOpCont (var : List Char) (s1 : List Char) :
    Option (IllogMatch × List Char) :=
  firstSomeDesc (fun w1 =>
    match cmpOpFirst (s1.drop w1) with
    | some (op, s3) => illogValueCont var op s3
    | none => none) (s1.takeWhile pySpace).length

/-- Try the full illogical pattern at the current position (greedy `\w+`
and `\s*` with longest-first backtracking, operator alternatives in
order). -/
def tryIllogMatch (s : List Char) : Option (IllogMatch × List Char) :=
  firstSomeDesc (fun k1 =>
    if k1 = 0 then none
    else illogOpCont (s.take k1) (s.drop k1)) (s.takeWhile isWordChar).length

/-- `pattern.finditer(line)` for the illogical pattern: left-to-right,
non-overlapping, resuming after each match. -/
def finditerIllogGo : Nat → List Char → List IllogMatch
  | 0, _ => []
  | _ + 1, [] => []
  | f + 1, c :: rest =>
    match tryIllogMatch (c :: rest) with
    | some (m, after) => m :: finditerIllogGo f after
    | none => finditerIllogGo f rest

/-- All matches of the illogical pattern in a line. -/
def finditerIllog (l : List Char) : List IllogMatch :=
  finditerIllogGo l.length l

/-- The message produced (or not) for one match: a quoted all-digit value is
a string compared as a number, an unquoted not-all-digit value is compared
as a string. -/
def illogicalMsg (m : IllogMatch) : Option (List Char) :=
  match m.quote with
  | some _ =>
    if isdigitPy (pyStrip m.val) then
      some ("Comparing string literal ".data ++ [dqc] ++ m.val ++ [dqc] ++
        " as number".data)
    else none
  | none =>
    if isdigitPy (pyStrip m.val) then none
    else some ("Comparing unquoted value ".data ++ m.val ++ " as string".data)

/-- `detect_illogical` from the source. -/
def detect_illogical (line : List Char) : List (List Char) :=
  (finditerIllog line).filterMap illogicalMsg

-- -------------------------------------------------------------------------
-- Line processor
-- -------------------------------------------------------------------------

/-- `", ".join(xs)`. -/
def joinComma : List (List Char) → List Char
  | [] => []
  | [x] => x
  | x :: y :: rest => x ++ ", ".data ++ joinComma (y :: rest)

/-- The normalization chain of `process_line` (keywords, then variables,
then literals). -/
def normalizeLine (l : List Char) : List Char :=
  normalize_literals (normalize_variables (normalize_keywords l))

/-- The output dispatch of `process_line`: the `if`/`elif` chain over the
four (already computed) detector results, emitting exactly one line. -/
def buildOutput (origLine line : List Char) (redundants : List (List Char))
    (contradiction : Bool) (typos illogical : List (List Char)) :
    List (List Char) :=
  match redundants with
  | r :: _ =>
    ["FLAG: Redundant condition ".data ++ [sqc] ++ r ++ [sqc] ++
      " in line: ".data ++ origLine]
  | [] =>
    if contradiction then
      ["FLAG: Contradictory/unreachable logic in line: ".data ++ origLine]
    else
      match typos with
      | _ :: _ =>
        ["FLAG: Potential typo(s) in variable name(s): ".data ++
          joinComma typos ++ " in line: ".data ++ origLine]
      | [] =>
        match illogical with
        | _ :: _ =>
          ["FLAG: Illogical comparison: ".data ++ joinComma illogical ++
            " in line: ".data ++ origLine]
        | [] => [line]

/-- `process_line` from the source: strip the raw line, normalize, run the
four detectors, and emit exactly one output line following the priority
redundancy, contradiction, typos, illogical, normalized text. -/
def process_line (l : List Char) : List (List Char) :=
  let origLine := pyStrip l
  let line := normalizeLine origLine
  buildOutput origLine line (detect_redundancy line) (detect_contradiction line)
    (detect_typos line) (detect_illogical line)

-- -------------------------------------------------------------------------
-- Theorems
-- -------------------------------------------------------------------------

/-- Claim C1 (counterexample): on the input of spec Example 1 the code does
not flag a redundant condition at all — the first atom of the `AND` split
keeps its leading `IF `, so the two cleaned atoms differ textually and
`process_line` outputs the normalized line, which does not begin with the
claimed `FLAG: Redundant condition ...` text. -/
theorem c1_example1_no_flag :
    process_line ("IF user_type IS \"admin\" AND user_type IS \"admin\" THEN grant_access".data) =
      [("IF user_type == \"admin\" AND user_type == \"admin\" THEN grant_access".data)] ∧
    (("FLAG: Redundant condition ".data ++ [sqc] ++ ("user_type == \"admin\"".data) ++ [sqc]).isPrefixOf
      ("IF user_type == \"admin\" AND user_type == \"admin\" THEN grant_access".data)) = false := by
  constructor
  · decide
  · decide

/-- Claim C1 (amended): with the condition repeated three times the repeated
atom is no longer the `IF`-prefixed first atom, and `process_line` reports
exactly the claimed redundancy flag. -/
theorem c1_triple_redundancy_flag :
    process_line ("IF user_type IS \"admin\" AND user_type IS \"admin\" AND user_type IS \"admin\" THEN grant_access".data) =
      [("FLAG: Redundant condition ".data ++ [sqc] ++ ("user_type == \"admin\"".data) ++ [sqc] ++
        (" in line: IF user_type IS \"admin\" AND user_type IS \"admin\" AND user_type IS \"admin\" THEN grant_access".data))] := by
  decide

/-- Claim C2 (counterexample): on the input of spec Example 2 the code does
emit a Finding: the Illogical-Comparison Detector captures the unquoted
value `100 THEN allow`, which is not purely numeric, so the output is a
FLAG line and not the normalized line. -/
theorem c2_example2_emits_flag :
    process_line ("IF ID_of_user > 100 THEN allow".data) =
      [("FLAG: Illogical comparison: Comparing unquoted value 100 THEN allow as string in line: IF ID_of_user > 100 THEN allow".data)] ∧
    process_line ("IF ID_of_user > 100 THEN allow".data) ≠
      [("IF user_id > 100 THEN allow".data)] := by
  constructor
  · decide
  · decide

/-- Claim C2 (amended): the normalization chain does canonicalize the alias
`ID_of_user` to `user_id`, giving the normalized text
`IF user_id > 100 THEN allow`, but `process_line` then emits the
illogical-comparison Finding for that normalized line rather than printing
it. -/
theorem c2_normalized_but_flagged :
    normalizeLine ("IF ID_of_user > 100 THEN allow".data) =
      ("IF user_id > 100 THEN allow".data) ∧
    process_line ("IF ID_of_user > 100 THEN allow".data) =
      [("FLAG: Illogical comparison: Comparing unquoted value 100 THEN allow as string in line: IF ID_of_user > 100 THEN allow".data)] := by
  constructor
  · decide
  · decide

/-- Claim C3 (counterexample): the composed normalization is not idempotent.
On `xY ==1 AND xY Cd== 2` the first pass rewrites the second `xY ` (the
whole-word substitution for the match `xY ` requires a word character after
the trailing space, which only the second occurrence has), merging it into
`x_yCd`; the phrase `AND xY Cd` recorded from the first scan no longer
occurs, so its substitution does nothing.  The second pass then finds and
rewrites the new phrase `AND x_yCd`, changing the line again. -/
theorem c3_not_idempotent :
    normalizeLine ("xY ==1 AND xY Cd== 2".data) = ("xY ==1 AND x_yCd== 2".data) ∧
    normalizeLine ("xY ==1 AND x_yCd== 2".data) = ("xY ==1 and_x_y_cd== 2".data) ∧
    ("xY ==1 AND x_yCd== 2".data) ≠ ("xY ==1 and_x_y_cd== 2".data) := by
  refine ⟨?_, ?_, ?_⟩
  · decide
  · decide
  · decide

/-- Claim C3 (amended): the composed normalization
`normalize_literals ∘ normalize_variables ∘ normalize_keywords` is
idempotent on the example lines of the specification (it is not idempotent
for every string). -/
theorem c3_idempotent_on_examples :
    (normalizeLine (normalizeLine ("IF user_type IS \"admin\" AND user_type IS \"admin\" THEN grant_access".data)) =
      normalizeLine ("IF user_type IS \"admin\" AND user_type IS \"admin\" THEN grant_access".data)) ∧
    (normalizeLine (normalizeLine ("IF ID_of_user > 100 THEN allow".data)) =
      normalizeLine ("IF ID_of_user > 100 THEN allow".data)) ∧
    (normalizeLine (normalizeLine ("IF purchase_amount == \"50\" THEN flag_review".data)) =
      normalizeLine ("IF purchase_amount == \"50\" THEN flag_review".data)) := by
  refine ⟨?_, ?_, ?_⟩
  · decide
  · decide
  · decide

/-- Claim C4 (counterexample): `ID_of_user` is a registered alias of the
canonical `user_id`, yet in the line `IF user_id== 1` replacing the
canonical name by the alias changes the output of `process_line`: the first
normalization loop absorbs the name into the longer phrase before `==`
(`IF user_id` resp. `IF ID_of_user`) and snake-cases the whole phrase, after
which the alias is no longer a whole word and the sweep cannot canonicalize
it, so the two normalized outputs differ. -/
theorem c4_alias_not_equivalent :
    (("user_id".data, ["user_ID".data, "UserId".data, "userId".data,
        "user_id".data, "ID_of_user".data]) ∈ VAR_SYNONYMS) ∧
    process_line ("IF user_id== 1".data) = [("if_user_id== 1".data)] ∧
    process_line ("IF ID_of_user== 1".data) = [("if_id_of_user== 1".data)] ∧
    process_line ("IF user_id== 1".data) ≠ process_line ("IF ID_of_user== 1".data) := by
  refine ⟨?_, ?_, ?_, ?_⟩
  · decide
  · decide
  · decide
  · decide

set_option maxHeartbeats 4000000 in
/-- Claim C4 (amended): alias equivalence does hold when the substituted
name stands alone before a spaced comparison: for every canonical name and
every registered alias, the lines `<canonical> == 5` and `<alias> == 5`
produce the same output, namely the canonical line with no Finding. -/
theorem c4_alias_equivalence_simple_form :
    VAR_SYNONYMS.all (fun p => p.2.all (fun al =>
      decide (process_line (al ++ " == 5".data) = process_line (p.1 ++ " == 5".data)) &&
      decide (process_line (p.1 ++ " == 5".data) = [p.1 ++ " == 5".data]))) = true := by
  decide

/-- Claim C6 (counterexample): the token `_12345` contains no uppercase and
no lowercase letter, yet `detect_typos` flags it (Python `isupper` and
`islower` are both false for a letterless token), refuting the claimed
equivalence with \"contains both an uppercase and a lowercase letter\". -/
theorem c6_letterless_token_flagged :
    (("_12345".data) ∈ detect_typos ("_12345 == 1".data)) ∧
    ("_12345".data.any Char.isUpper) = false ∧
    ("_12345".data.any Char.isLower) = false := by
  refine ⟨?_, ?_, ?_⟩
  · decide
  · decide
  · decide

/-- Claim C6 (amended): membership in `detect_typos` is exactly: an
identifier-like token of the line, unknown case-insensitively to both alias
structures, longer than four characters, and neither Python-`isupper` nor
Python-`islower`. -/
theorem c6_typo_rule (l t : List Char) :
    t ∈ detect_typos l ↔
      (t ∈ findTokens l ∧ pyLower t ∉ ALL_VAR_NAMES ∧
       pyLower t ∉ VAR_CANONICAL.map Prod.fst ∧ 4 < t.length ∧
       pyIsUpper t = false ∧ pyIsLower t = false) := by
  rw [detect_typos, List.mem_filter, typoCond]
  simp only [Bool.and_eq_true, decide_eq_true_eq, Bool.not_eq_true']
  tauto

/-- Helper: the output dispatch always yields a one-element list. -/
theorem buildOutput_singleton (o n : List Char) (r : List (List Char))
    (c : Bool) (t i : List (List Char)) : ∃ out, buildOutput o n r c t i = [out] := by
  cases r with
  | cons rh rt => exact ⟨_, rfl⟩
  | nil =>
    cases c with
    | true => exact ⟨_, rfl⟩
    | false =>
      cases t with
      | cons th tt => exact ⟨_, rfl⟩
      | nil =>
        cases i with
        | cons ih it => exact ⟨_, rfl⟩
        | nil => exact ⟨_, rfl⟩

/-- Helper: `process_line` always returns a one-element list. -/
theorem process_line_singleton (l : List Char) : ∃ out, process_line l = [out] :=
  buildOutput_singleton (pyStrip l) (normalizeLine (pyStrip l))
    (detect_redundancy (normalizeLine (pyStrip l)))
    (detect_contradiction (normalizeLine (pyStrip l)))
    (detect_typos (normalizeLine (pyStrip l)))
    (detect_illogical (normalizeLine (pyStrip l)))

/-- Claim C5: for a non-blank input line, `process_line` emits exactly one
output line, chosen by the fixed priority redundancy, contradiction, typo,
illogical; the first non-empty detector result determines the single
Finding, lower-priority results are suppressed, and if no detector fires
the normalized line is emitted. -/
theorem c5_single_output_priority (s : List Char) (h : pyStrip s ≠ []) :
    (process_line s).length = 1 ∧
    (∀ r rs, detect_redundancy (normalizeLine (pyStrip s)) = r :: rs →
      process_line s = ["FLAG: Redundant condition ".data ++ [sqc] ++ r ++ [sqc] ++
        " in line: ".data ++ pyStrip s]) ∧
    (detect_redundancy (normalizeLine (pyStrip s)) = [] →
     detect_contradiction (normalizeLine (pyStrip s)) = true →
      process_line s = ["FLAG: Contradictory/unreachable logic in line: ".data ++ pyStrip s]) ∧
    (detect_redundancy (normalizeLine (pyStrip s)) = [] →
     detect_contradiction (normalizeLine (pyStrip s)) = false →
     detect_typos (normalizeLine (pyStrip s)) ≠ [] →
      process_line s = ["FLAG: Potential typo(s) in variable name(s): ".data ++
        joinComma (detect_typos (normalizeLine (pyStrip s))) ++ " in line: ".data ++ pyStrip s]) ∧
    (detect_redundancy (normalizeLine (pyStrip s)) = [] →
     detect_contradiction (normalizeLine (pyStrip s)) = false →
     detect_typos (normalizeLine (pyStrip s)) = [] →
     detect_illogical (normalizeLine (pyStrip s)) ≠ [] →
      process_line s = ["FLAG: Illogical comparison: ".data ++
        joinComma (detect_illogical (normalizeLine (pyStrip s))) ++ " in line: ".data ++ pyStrip s]) ∧
    (detect_redundancy (normalizeLine (pyStrip s)) = [] →
     detect_contradiction (normalizeLine (pyStrip s)) = false →
     detect_typos (normalizeLine (pyStrip s)) = [] →
     detect_illogical (normalizeLine (pyStrip s)) = [] →
      process_line s = [normalizeLine (pyStrip s)]) := by
  have hpl : process_line s = buildOutput (pyStrip s) (normalizeLine (pyStrip s))
      (detect_redundancy (normalizeLine (pyStrip s)))
      (detect_contradiction (normalizeLine (pyStrip s)))
      (detect_typos (normalizeLine (pyStrip s)))
      (detect_illogical (normalizeLine (pyStrip s))) := rfl
  refine ⟨?_, ?_, ?_, ?_, ?_, ?_⟩
  · obtain ⟨o, ho⟩ := process_line_singleton s
    rw [ho]
    rfl
  · intro r rs hr
    rw [hpl, hr]
    rfl
  · intro h1 h2
    rw [hpl, h1, h2]
    rfl
  · intro h1 h2 h3
    rcases ht : detect_typos (normalizeLine (pyStrip s)) with _ | ⟨t, ts⟩
    · exact absurd ht h3
    · rw [hpl, h1, h2, ht]
      rfl
  · intro h1 h2 h3 h4
    rcases hi : detect_illogical (normalizeLine (pyStrip s)) with _ | ⟨i, irest⟩
    · exact absurd hi h4
    · rw [hpl, h1, h2, h3, hi]
      rfl
  · intro h1 h2 h3 h4
    rw [hpl, h1, h2, h3, h4]
    rfl

/-- Witness for claim C5 at a concrete non-blank line. -/
theorem c5_single_output_priority_witness :
    pyStrip ("a == 5".data) ≠ [] ∧ (process_line ("a == 5".data)).length = 1 :=
  ⟨by decide, (c5_single_output_priority ("a == 5".data) (by decide)).1⟩

/-- Claim C7: the Illogical-Comparison Detector produces a message for a
match exactly when the value is quoted and purely numeric, or unquoted and
not purely numeric; on spec Example 3 the output is the claimed flag. -/
theorem c7_illogical_rule :
    (∀ m : IllogMatch, (illogicalMsg m).isSome = true ↔
      ((m.quote ≠ none ∧ isdigitPy (pyStrip m.val) = true) ∨
       (m.quote = none ∧ isdigitPy (pyStrip m.val) = false))) ∧
    process_line ("IF purchase_amount == \"50\" THEN flag_review".data) =
      [("FLAG: Illogical comparison: Comparing string literal \"50\" as number in line: IF purchase_amount == \"50\" THEN flag_review".data)] := by
  constructor
  · rintro ⟨var, op, q, val⟩
    cases q with
    | none =>
      by_cases hd : isdigitPy (pyStrip val) = true <;>
        simp_all [illogicalMsg]
    | some c =>
      by_cases hd : isdigitPy (pyStrip val) = true <;>
        simp_all [illogicalMsg]
  · decide

/-- Claim C9: for an identifier (no quote characters, no surrounding
whitespace) registered under no synonym-table entry — neither exactly, nor
via its snake-case form, nor case-insensitively — `normalize_var` returns
the generic case-style fallback `to_snake_case` of the identifier (and, being
a total function, never raises). -/
theorem c9_unregistered_fallback (v : List Char)
    (h1 : sqc ∉ v) (h2 : dqc ∉ v) (h3 : pyStrip v = v)
    (h4 : ∀ p ∈ VAR_SYNONYMS, v ∉ p.2 ∧ to_snake_case v ∉ p.2 ∧
          pyLower v ∉ p.2.map pyLower) :
    normalize_var v = to_snake_case v := by
  have e1 : removeChar sqc v = v := List.filter_eq_self.mpr (fun a ha => by
    simp only [decide_eq_true_eq]
    exact fun e => h1 (e ▸ ha))
  have e2 : removeChar dqc v = v := List.filter_eq_self.mpr (fun a ha => by
    simp only [decide_eq_true_eq]
    exact fun e => h2 (e ▸ ha))
  have hclean : removeChar dqc (removeChar sqc (pyStrip v)) = v := by
    rw [h3, e1, e2]
  have hfind : VAR_SYNONYMS.find? (fun p =>
      decide (v ∈ p.2) || decide (to_snake_case v ∈ p.2) ||
      decide (pyLower v ∈ p.2.map pyLower)) = none := by
    rw [List.find?_eq_none]
    intro p hp
    obtain ⟨ha, hb, hc⟩ := h4 p hp
    simp [ha, hb, hc]
  simp only [normalize_var, hclean, hfind]

/-- Witness for claim C9 at the concrete unregistered identifier `Zx9Qy`. -/
theorem c9_unregistered_fallback_witness :
    (sqc ∉ ("Zx9Qy".data) ∧ dqc ∉ ("Zx9Qy".data) ∧ pyStrip ("Zx9Qy".data) = ("Zx9Qy".data) ∧
      (∀ p ∈ VAR_SYNONYMS, ("Zx9Qy".data) ∉ p.2 ∧ to_snake_case ("Zx9Qy".data) ∉ p.2 ∧
        pyLower ("Zx9Qy".data) ∉ p.2.map pyLower)) ∧
    normalize_var ("Zx9Qy".data) = to_snake_case ("Zx9Qy".data) :=
  ⟨⟨by decide, by decide, by decide, by decide⟩,
    c9_unregistered_fallback ("Zx9Qy".data) (by decide) (by decide) (by decide) (by decide)⟩


-- helper lemmas for symbolic scanner reasoning

theorem takeWhile_all_append {p : Char → Bool} {xs ys : List Char}
    (h : ∀ c ∈ xs, p c = true) :
    (xs ++ ys).takeWhile p = xs ++ ys.takeWhile p := by
  induction xs with
  | nil => simp
  | cons c t ih =>
    simp only [List.cons_append, List.takeWhile_cons, h c (by simp), if_true]
    rw [ih (fun x hx => h x (by simp [hx]))]

theorem takeWhile_all {p : Char → Bool} {l : List Char}
    (h : ∀ c ∈ l, p c = true) : l.takeWhile p = l := by
  induction l with
  | nil => rfl
  | cons c t ih =>
    simp only [List.takeWhile_cons, h c (by simp), if_true]
    rw [ih (fun x hx => h x (by simp [hx]))]

theorem takeWhile_cons_neg {p : Char → Bool} {y : Char} {ys : List Char}
    (h : p y = false) : (y :: ys).takeWhile p = [] := by
  simp [List.takeWhile_cons, h]

theorem firstSomeDesc_pos {α : Type} {f : Nat → Option α} {n : Nat} {v : α}
    (hn : 0 < n) (h : f n = some v) : firstSomeDesc f n = some v := by
  cases n with
  | zero => omega
  | succ k => simp [firstSomeDesc, h]

theorem finditerIllogGo_nil (f : Nat) : finditerIllogGo f [] = [] := by
  cases f <;> rfl

theorem mem_dropWhile_of_mem {p : Char → Bool} {x : Char} {l : List Char}
    (hx : x ∈ l) (hp : p x = false) : x ∈ l.dropWhile p := by
  induction l with
  | nil => simp at hx
  | cons c t ih =>
    cases hx with
    | head =>
      rw [List.dropWhile_cons, hp]
      simp
    | tail _ hx =>
      by_cases hc : p c = true
      · rw [List.dropWhile_cons, hc]
        exact ih hx
      · rw [List.dropWhile_cons, Bool.of_not_eq_true hc]
        exact List.mem_cons_of_mem c hx

theorem mem_pyStrip {x : Char} {l : List Char}
    (hx : x ∈ l) (hp : pySpace x = false) : x ∈ pyStrip l := by
  unfold pyStrip
  rw [List.mem_reverse]
  apply mem_dropWhile_of_mem _ hp
  rw [List.mem_reverse]
  exact mem_dropWhile_of_mem hx hp

theorem isdigitPy_eq_false_of_mem {x : Char} {l : List Char}
    (hx : x ∈ l) (hd : x.isDigit = false) : isdigitPy l = false := by
  have hall : l.all Char.isDigit = false := by
    rcases h : l.all Char.isDigit
    · rfl
    · exact absurd ((List.all_eq_true.mp h) x hx) (by simp [hd])
  simp [isdigitPy, hall]

theorem not_space_of_digit {c : Char} (h : c.isDigit = true) : pySpace c = false := by
  rcases hsp : pySpace c
  · rfl
  · exfalso
    unfold pySpace at hsp
    simp only [Bool.or_eq_true, decide_eq_true_eq] at hsp
    rcases hsp with ((((e | e) | e) | e) | e) | e <;>
      (subst e; exact absurd h (by decide))

theorem wordChar_of_digit {c : Char} (h : c.isDigit = true) : isWordChar c = true := by
  simp [isWordChar, Char.isAlphanum, h]

theorem wordSpace_of_digit {c : Char} (h : c.isDigit = true) : isWordSpace c = true := by
  simp [isWordSpace, wordChar_of_digit h]

-- Claim C10 core lemmas, level by level.

theorem illogValueCont_unquoted (var op : List Char) (X : List Char)
    (hval : tryIllogValue X = some ((none, X), []))
    (hws : X.takeWhile pySpace = []) :
    illogValueCont var op (' ' :: X) = some (⟨var, op, none, X⟩, []) := by
  unfold illogValueCont
  have h1 : (' ' :: X).takeWhile pySpace = [' '] := by
    rw [List.takeWhile_cons]
    simp only [show pySpace ' ' = true from by decide, if_true, hws]
  rw [h1]
  simp only [List.length_singleton]
  apply firstSomeDesc_pos (by decide)
  simp only [List.drop_succ_cons, List.drop_zero, hval]

theorem illogOpCont_eqeq (var : List Char) (X : List Char)
    (hval : tryIllogValue X = some ((none, X), []))
    (hws : X.takeWhile pySpace = []) :
    illogOpCont var (' ' :: '=' :: '=' :: ' ' :: X) =
      some (⟨var, "==".data, none, X⟩, []) := by
  unfold illogOpCont
  rw [show (' ' :: '=' :: '=' :: ' ' :: X).takeWhile pySpace = [' '] from rfl]
  simp only [List.length_singleton]
  apply firstSomeDesc_pos (by decide)
  simp only [List.drop_succ_cons, List.drop_zero]
  rw [show cmpOpFirst ('=' :: '=' :: ' ' :: X) = some ("==".data, ' ' :: X) from rfl]
  exact illogValueCont_unquoted var "==".data X hval hws

theorem tryIllogValue_unquoted (X : List Char) (hX : X ≠ [])
    (hXw : ∀ c ∈ X, isWordSpace c = true)
    (hq : ∀ e, X = e :: X.tail → (e = sqc ∨ e = dqc) → False) :
    tryIllogValue X = some ((none, X), []) := by
  obtain ⟨x0, X', rfl⟩ := List.exists_cons_of_ne_nil hX
  simp only [tryIllogValue]
  have hqc : (decide (x0 = sqc) || decide (x0 = dqc)) = false := by
    have h1 : decide (x0 = sqc) = false :=
      decide_eq_false (fun e => hq x0 rfl (Or.inl e))
    have h2 : decide (x0 = dqc) = false :=
      decide_eq_false (fun e => hq x0 rfl (Or.inr e))
    rw [h1, h2]
    rfl
  rw [if_neg (by simpa using hqc)]
  rw [takeWhile_all hXw]
  apply firstSomeDesc_pos (by simp)
  rw [if_neg (by simp)]
  rw [List.take_length, List.drop_length]

theorem tryIllogMatch_unquoted (v d a : List Char) (hv : v ≠ [])
    (hvw : ∀ c ∈ v, isWordChar c = true)
    (hd : d ≠ []) (hdd : ∀ c ∈ d, c.isDigit = true)
    (haw : ∀ c ∈ a, isWordSpace c = true) :
    tryIllogMatch (v ++ " == ".data ++ d ++ " THEN ".data ++ a) =
      some (⟨v, "==".data, none, d ++ " THEN ".data ++ a⟩, []) := by
  obtain ⟨d0, d', rfl⟩ := List.exists_cons_of_ne_nil hd
  have hd0 : d0.isDigit = true := hdd d0 (by simp)
  have hTH : ∀ c ∈ " THEN ".data, isWordSpace c = true := by decide
  have hXw : ∀ c ∈ d0 :: (d' ++ (" THEN ".data ++ a)), isWordSpace c = true := by
    intro c hc
    cases hc with
    | head => exact wordSpace_of_digit hd0
    | tail _ hc =>
      rcases List.mem_append.mp hc with hc2 | hc2
      · exact wordSpace_of_digit (hdd c (by simp [hc2]))
      · rcases List.mem_append.mp hc2 with hc3 | hc3
        · exact hTH c hc3
        · exact haw c hc3
  have hval : tryIllogValue (d0 :: (d' ++ (" THEN ".data ++ a))) =
      some ((none, d0 :: (d' ++ (" THEN ".data ++ a))), []) := by
    apply tryIllogValue_unquoted _ (by simp) hXw
    intro e he hor
    have he0 : e = d0 := by
      have := congrArg (fun l => l.headD ' ') he
      simpa using this.symm
    rcases hor with e2 | e2
    · subst he0
      subst e2
      exact absurd hd0 (by decide)
    · subst he0
      subst e2
      exact absurd hd0 (by decide)
  have hws0 : (d0 :: (d' ++ (" THEN ".data ++ a))).takeWhile pySpace = [] :=
    takeWhile_cons_neg (not_space_of_digit hd0)
  have hmain : v ++ " == ".data ++ (d0 :: d') ++ " THEN ".data ++ a
      = v ++ (' ' :: '=' :: '=' :: ' ' :: (d0 :: (d' ++ (" THEN ".data ++ a)))) := by
    rw [show " == ".data = ' ' :: '=' :: '=' :: ' ' :: [] from rfl]
    simp [List.append_assoc]
  rw [hmain]
  unfold tryIllogMatch
  have htw : (v ++ (' ' :: '=' :: '=' :: ' ' :: (d0 :: (d' ++ (" THEN ".data ++ a))))).takeWhile isWordChar = v := by
    rw [takeWhile_all_append hvw, takeWhile_cons_neg (by decide)]
    simp
  rw [htw]
  apply firstSomeDesc_pos (List.length_pos.mpr hv)
  simp only [if_neg (Nat.pos_iff_ne_zero.mp (List.length_pos.mpr hv))]
  rw [List.take_left, List.drop_left]
  have hfinal : d0 :: (d' ++ (" THEN ".data ++ a)) = (d0 :: d') ++ " THEN ".data ++ a := by
    simp [List.append_assoc]
  rw [← hfinal]
  exact illogOpCont_eqeq v _ hval hws0

/-- Claim C10: in the Illogical-Comparison Detector, the unquoted value
captured after the operator is the maximal run of word/whitespace
characters, so in a line `<var> == <digits> THEN <action>` the examined
value is `<digits> THEN <action>`, not the digits alone, and the detector
flags it as a non-numeric unquoted value. -/
theorem c10_value_swallows_action (v d a : List Char) (hv : v ≠ [])
    (hvw : ∀ c ∈ v, isWordChar c = true)
    (hd : d ≠ []) (hdd : ∀ c ∈ d, c.isDigit = true)
    (ha : a ≠ []) (haw : ∀ c ∈ a, isWordSpace c = true) :
    detect_illogical (v ++ " == ".data ++ d ++ " THEN ".data ++ a) =
      ["Comparing unquoted value ".data ++ (d ++ " THEN ".data ++ a) ++
        " as string".data] := by
  have hm := tryIllogMatch_unquoted v d a hv hvw hd hdd haw
  obtain ⟨v0, v', rfl⟩ := List.exists_cons_of_ne_nil hv
  have hiter : finditerIllog ((v0 :: v') ++ " == ".data ++ d ++ " THEN ".data ++ a) =
      [⟨v0 :: v', "==".data, none, d ++ " THEN ".data ++ a⟩] := by
    unfold finditerIllog
    simp only [List.cons_append] at hm ⊢
    simp only [List.length_cons]
    simp only [finditerIllogGo, hm]
    exact congrArg _ (finditerIllogGo_nil _)
  unfold detect_illogical
  rw [hiter]
  have hTmem : 'T' ∈ d ++ " THEN ".data ++ a := by
    simp [List.mem_append]
  have hdig : isdigitPy (pyStrip (d ++ " THEN ".data ++ a)) = false :=
    isdigitPy_eq_false_of_mem (mem_pyStrip hTmem (by decide)) (by decide)
  have hdig2 : isdigitPy (pyStrip (d ++ (' ' :: 'T' :: 'H' :: 'E' :: 'N' :: ' ' :: a))) = false := by
    have : d ++ (' ' :: 'T' :: 'H' :: 'E' :: 'N' :: ' ' :: a) = d ++ " THEN ".data ++ a := by
      simp [List.append_assoc]
    rw [this]
    exact hdig
  simp [List.filterMap_cons, illogicalMsg, hdig2, List.append_assoc]

theorem mem_splitsOf {l : List Char} {p : List Char × List Char} :
    p ∈ splitsOf l ↔ p.1 ++ p.2 = l := by
  constructor
  · intro h
    simp only [splitsOf, List.mem_map, List.mem_range] at h
    obtain ⟨i, _, rfl⟩ := h
    exact List.take_append_drop i l
  · intro h
    simp only [splitsOf, List.mem_map, List.mem_range]
    refine ⟨p.1.length, ?_, ?_⟩
    · rw [← h, List.length_append]
      omega
    · obtain ⟨p1, p2⟩ := p
      simp only at h
      rw [← h, List.take_left, List.drop_left]

theorem stripPre_eq_some {pre : List Char} : ∀ {l r : List Char},
    stripPre pre l = some r ↔ l = pre ++ r := by
  induction pre with
  | nil => intro l r; simp [stripPre, matchLit]
  | cons p ps ih =>
    intro l r
    cases l with
    | nil => simp [stripPre, matchLit]
    | cons c cs =>
      simp only [stripPre, matchLit, foldCase, if_false, List.cons_append,
        List.cons.injEq]
      by_cases h : c = p
      · rw [if_pos (by simp [h])]
        rw [show (matchLit false ps cs = some r) ↔ (cs = ps ++ r) from ih]
        simp [h]
      · rw [if_neg (by simp [h])]
        simp [h]

theorem optAny_eq_true {α : Type} {o : Option α} {f : α → Bool} :
    optAny o f = true ↔ ∃ v, o = some v ∧ f v = true := by
  cases o <;> simp [optAny]

theorem noNL_iff {l : List Char} : noNL l = true ↔ ∀ c ∈ l, c ≠ nlc := by
  simp [noNL]

theorem c8_aux_mp {l : List Char} (h : detect_contradiction l = true) :
    contradictionShapeSpec l := by
  unfold detect_contradiction at h
  rw [List.any_eq_true] at h
  obtain ⟨⟨a, t⟩, hmem, hbody⟩ := h
  rw [mem_splitsOf] at hmem
  rw [optAny_eq_true] at hbody
  obtain ⟨r1, hs1, hbody⟩ := hbody
  rw [stripPre_eq_some] at hs1
  rw [List.any_eq_true] at hbody
  obtain ⟨⟨x, rx⟩, hmem2, hbody⟩ := hbody
  rw [mem_splitsOf] at hmem2
  rw [Bool.and_eq_true, Bool.and_eq_true] at hbody
  obtain ⟨⟨hxe, hxnl⟩, hbody⟩ := hbody
  rw [optAny_eq_true] at hbody
  obtain ⟨r2, hs2, hbody⟩ := hbody
  rw [stripPre_eq_some] at hs2
  rw [List.any_eq_true] at hbody
  obtain ⟨⟨y, ry⟩, hmem3, hbody⟩ := hbody
  rw [mem_splitsOf] at hmem3
  rw [Bool.and_eq_true, Bool.and_eq_true] at hbody
  obtain ⟨⟨hye, hynl⟩, hbody⟩ := hbody
  rw [optAny_eq_true] at hbody
  obtain ⟨r3, hs3, hbody⟩ := hbody
  rw [stripPre_eq_some] at hs3
  rw [List.any_eq_true] at hbody
  obtain ⟨r4, hmem4, hbody⟩ := hbody
  rw [List.mem_filterMap] at hmem4
  obtain ⟨kw, hkwmem, hkw⟩ := hmem4
  rw [stripPre_eq_some] at hkw
  rw [List.any_eq_true] at hbody
  obtain ⟨⟨m, rm⟩, hmem5, hbody⟩ := hbody
  rw [mem_splitsOf] at hmem5
  rw [Bool.and_eq_true, Bool.and_eq_true] at hbody
  obtain ⟨⟨hme, hmnl⟩, hbody⟩ := hbody
  rw [optAny_eq_true] at hbody
  obtain ⟨r5, hs5, hbody⟩ := hbody
  rw [stripPre_eq_some] at hs5
  rw [optAny_eq_true] at hbody
  obtain ⟨r6, hs6, hbody⟩ := hbody
  rw [stripPre_eq_some] at hs6
  rw [optAny_eq_true] at hbody
  obtain ⟨r7, hs7, hbody⟩ := hbody
  rw [stripPre_eq_some] at hs7
  rw [Option.isSome_iff_exists] at hbody
  obtain ⟨b, hs8⟩ := hbody
  rw [stripPre_eq_some] at hs8
  refine ⟨a, x, y, kw, m, b, ?_, ?_, ?_, ?_, ?_, ?_, ?_, ?_⟩
  · simpa using hkwmem
  · simpa using hxe
  · simpa using hye
  · simpa using hme
  · exact noNL_iff.mp hxnl
  · exact noNL_iff.mp hynl
  · exact noNL_iff.mp hmnl
  · subst hs8 hs7 hs6 hs5 hkw hs3 hs2 hs1
    rw [← hmem, ← hmem2, ← hmem3, ← hmem5]
    simp [List.append_assoc]

theorem c8_aux_mpr {l : List Char} (h : contradictionShapeSpec l) :
    detect_contradiction l = true := by
  obtain ⟨a, x, y, kw, m, b, hkw, hx, hy, hm, hxnl, hynl, hmnl, rfl⟩ := h
  unfold detect_contradiction
  rw [List.any_eq_true]
  refine ⟨(a, "IF ".data ++ x ++ " == ".data ++ y ++ " ".data ++ kw ++ m ++
      "ELSE IF ".data ++ x ++ " == ".data ++ y ++ b),
    mem_splitsOf.mpr (by simp [List.append_assoc]), ?_⟩
  rw [optAny_eq_true]
  refine ⟨x ++ " == ".data ++ y ++ " ".data ++ kw ++ m ++
      "ELSE IF ".data ++ x ++ " == ".data ++ y ++ b,
    stripPre_eq_some.mpr (by simp [List.append_assoc]), ?_⟩
  rw [List.any_eq_true]
  refine ⟨(x, " == ".data ++ y ++ " ".data ++ kw ++ m ++
      "ELSE IF ".data ++ x ++ " == ".data ++ y ++ b),
    mem_splitsOf.mpr (by simp [List.append_assoc]), ?_⟩
  rw [Bool.and_eq_true, Bool.and_eq_true]
  refine ⟨⟨by simp [hx], noNL_iff.mpr hxnl⟩, ?_⟩
  rw [optAny_eq_true]
  refine ⟨y ++ " ".data ++ kw ++ m ++
      "ELSE IF ".data ++ x ++ " == ".data ++ y ++ b,
    stripPre_eq_some.mpr (by simp [List.append_assoc]), ?_⟩
  rw [List.any_eq_true]
  refine ⟨(y, " ".data ++ kw ++ m ++
      "ELSE IF ".data ++ x ++ " == ".data ++ y ++ b),
    mem_splitsOf.mpr (by simp [List.append_assoc]), ?_⟩
  rw [Bool.and_eq_true, Bool.and_eq_true]
  refine ⟨⟨by simp [hy], noNL_iff.mpr hynl⟩, ?_⟩
  rw [optAny_eq_true]
  refine ⟨kw ++ m ++ "ELSE IF ".data ++ x ++ " == ".data ++ y ++ b,
    stripPre_eq_some.mpr (by simp [List.append_assoc]), ?_⟩
  rw [List.any_eq_true]
  refine ⟨m ++ "ELSE IF ".data ++ x ++ " == ".data ++ y ++ b,
    List.mem_filterMap.mpr ⟨kw, by rcases hkw with h | h <;> simp [h],
      stripPre_eq_some.mpr (by simp [List.append_assoc])⟩, ?_⟩
  rw [List.any_eq_true]
  refine ⟨(m, "ELSE IF ".data ++ x ++ " == ".data ++ y ++ b),
    mem_splitsOf.mpr (by simp [List.append_assoc]), ?_⟩
  rw [Bool.and_eq_true, Bool.and_eq_true]
  refine ⟨⟨by simp [hm], noNL_iff.mpr hmnl⟩, ?_⟩
  rw [optAny_eq_true]
  refine ⟨x ++ " == ".data ++ y ++ b,
    stripPre_eq_some.mpr (by simp [List.append_assoc]), ?_⟩
  rw [optAny_eq_true]
  refine ⟨" == ".data ++ y ++ b,
    stripPre_eq_some.mpr (by simp [List.append_assoc]), ?_⟩
  rw [optAny_eq_true]
  refine ⟨y ++ b, stripPre_eq_some.mpr (by simp [List.append_assoc]), ?_⟩
  rw [Option.isSome_iff_exists]
  exact ⟨b, stripPre_eq_some.mpr rfl⟩

/-- Claim C8: the Contradiction Detector fires exactly on lines containing
the shape `IF <var> == <val> ... THEN|DO ... ELSE IF <var> == <val>` with
textually identical variable and value in both guards, and in particular
does not fire on the semantically contradictory but textually different
`IF x > 5 THEN a ELSE IF x < 5 THEN b`. -/
theorem c8_contradiction_shape :
    (∀ l, detect_contradiction l = true ↔ contradictionShapeSpec l) ∧
    detect_contradiction ("IF x > 5 THEN a ELSE IF x < 5 THEN b".data) = false := by
  constructor
  · exact fun l => ⟨c8_aux_mp, c8_aux_mpr⟩
  · decide

/-- Witness for claim C10 at the concrete line `x == 50 THEN go`. -/
theorem c10_value_swallows_action_witness :
    (("x".data : List Char) ≠ [] ∧ ("50".data : List Char) ≠ [] ∧
      ("go".data : List Char) ≠ []) ∧
    detect_illogical ("x == 50 THEN go".data) =
      ["Comparing unquoted value 50 THEN go as string".data] :=
  ⟨⟨by decide, by decide, by decide⟩,
    c10_value_swallows_action ("x".data) ("50".data) ("go".data) (by decide)
      (by decide) (by decide) (by decide) (by decide) (by decide)⟩
